import Mathlib

/-!
Shallow embedding of the on-chain Quest & Daily-Claim Ledger
(`src/contracts/QuestTracker.sol`, Solidity 0.8) and proofs of its
specified properties.

Modelling conventions:
* `uint256` values are `Nat` (Solidity 0.8 checked arithmetic reverts on
  under/overflow; where a subtraction could underflow we model the revert
  explicitly with `Option`).
* `address` is `Nat`, with `0` playing the role of `address(0)`.
* Solidity `mapping`s are total functions with the zero-initialised
  default value.
* A state-mutating external function is a Lean function
  `State → args → Nat (block.timestamp) → Except Err State`; a revert is
  `.error e` where `e` is the error kind of the spec taxonomy that the
  require message maps to.  `require` checks appear in exactly the source
  order (modifiers first, in declaration order, then body requires).
* The EVM rolls a reverted call back wholesale, so a trace keeps the old
  state when a call errors (`execOp`).
-/

namespace QuestTracker

/-- Error taxonomy of the specification, which the contract's `require`
messages map onto:  `Quest does not exist` ↦ `NotFound`,
`Quest is not active` / `Quest has expired` ↦ `QuestUnavailable`, etc. -/
inductive Err where
  | Unauthorized
  | NotFound
  | QuestUnavailable
  | InvalidUser
  | AlreadyCompleted
  | CooldownActive
  | InvalidSchedule
  | InvalidQuest
  deriving Repr, DecidableEq

abbrev Address := Nat

/-- `struct Quest` of the contract. -/
structure Quest where
  id : Nat
  title : String
  description : String
  reward : Nat
  requirements : List String
  estimatedTimeMinutes : Nat
  isActive : Bool
  createdAt : Nat
  endDate : Nat
  deriving Repr, DecidableEq

/-- `struct UserProgress` of the contract. -/
structure UserProgress where
  completed : Bool
  completedAt : Nat
  deriving Repr, DecidableEq

/-- `struct DailyClaim` of the contract. -/
structure DailyClaim where
  lastClaimTime : Nat
  claimed : Bool
  deriving Repr, DecidableEq

/-- Zero-initialised `Quest`, the default value of the `quests` mapping. -/
def defaultQuest : Quest :=
  { id := 0, title := "", description := "", reward := 0, requirements := [],
    estimatedTimeMinutes := 0, isActive := false, createdAt := 0, endDate := 0 }

/-- Zero-initialised `UserProgress` mapping default. -/
def defaultProgress : UserProgress := { completed := false, completedAt := 0 }

/-- Zero-initialised `DailyClaim` mapping default. -/
def defaultClaim : DailyClaim := { lastClaimTime := 0, claimed := false }

/-- The whole persistent state of the `QuestTracker` contract. -/
structure State where
  owner : Address
  backendWallet : Address
  dailyRewardAmount : Nat
  claimCooldown : Nat
  questCounter : Nat
  quests : Nat → Quest
  userQuests : Address → Nat → UserProgress
  totalQuestsCompleted : Address → Nat
  dailyClaims : Address → DailyClaim

/-- The post-constructor state: `owner = msg.sender`, counter `0`, all
mappings zero-initialised.  The constructor's own `require`s
(`backendWallet ≠ 0`, `dailyRewardAmount > 0`, `claimCooldown ≥ 1 hours`)
are imposed as side conditions where construction is assumed
(see `Reachable.init`). -/
def initState (sender backend amt cooldown : Address) : State :=
  { owner := sender
    backendWallet := backend
    dailyRewardAmount := amt
    claimCooldown := cooldown
    questCounter := 0
    quests := fun _ => defaultQuest
    userQuests := fun _ _ => defaultProgress
    totalQuestsCompleted := fun _ => 0
    dailyClaims := fun _ => defaultClaim }

/-- `createQuest` (contract lines 113–139).  Guard order: `onlyOwner`
modifier, then `endDate > block.timestamp`, then
`requirements.length > 0`; on success `questCounter` is incremented and a
fresh `Quest` stored under the new counter.  The Solidity function has no
return value. -/
def createQuest (s : State) (caller : Address) (title descr : String)
    (reward : Nat) (requirements : List String) (est endDate now : Nat) :
    Except Err State :=
  if caller ≠ s.owner then .error .Unauthorized
  else if ¬ endDate > now then .error .InvalidSchedule
  else if ¬ requirements.length > 0 then .error .InvalidQuest
  else
    let newId := s.questCounter + 1
    .ok { s with
      questCounter := newId
      quests := fun i =>
        if i = newId then
          { id := newId, title := title, description := descr,
            reward := reward, requirements := requirements,
            estimatedTimeMinutes := est, isActive := true,
            createdAt := now, endDate := endDate }
        else s.quests i }

/-- `completeQuestForUser` (contract lines 146–165).  Guard order:
`questExists` modifier, `questIsActive` modifier (active flag first, then
expiry), then the body's authorization, user and double-completion
checks; on success the `(user, questId)` progress entry is written and
the user's completion counter incremented. -/
def completeQuestForUser (s : State) (caller user : Address)
    (questId now : Nat) : Except Err State :=
  if ¬ (questId > 0 ∧ questId ≤ s.questCounter) then .error .NotFound
  else if ¬ (s.quests questId).isActive = true then .error .QuestUnavailable
  else if ¬ now ≤ (s.quests questId).endDate then .error .QuestUnavailable
  else if ¬ (caller = s.owner ∨ caller = s.backendWallet) then .error .Unauthorized
  else if user = 0 then .error .InvalidUser
  else if (s.userQuests user questId).completed then .error .AlreadyCompleted
  else
    .ok { s with
      userQuests := fun u q =>
        if u = user ∧ q = questId then { completed := true, completedAt := now }
        else s.userQuests u q
      totalQuestsCompleted := fun u =>
        if u = user then s.totalQuestsCompleted u + 1
        else s.totalQuestsCompleted u }

/-- `setDailyClaimed` (contract lines 171–189).  Guard order:
authorization, user validity, then the cooldown check
`currentTime ≥ lastClaimTime + claimCooldown`; on success the user's
claim record becomes `(now, true)`. -/
def setDailyClaimed (s : State) (caller user : Address) (now : Nat) :
    Except Err State :=
  if ¬ (caller = s.owner ∨ caller = s.backendWallet) then .error .Unauthorized
  else if user = 0 then .error .InvalidUser
  else if ¬ now ≥ (s.dailyClaims user).lastClaimTime + s.claimCooldown then
    .error .CooldownActive
  else
    .ok { s with
      dailyClaims := fun u =>
        if u = user then { lastClaimTime := now, claimed := true }
        else s.dailyClaims u }

/-- `struct UserDetails` of the contract. -/
structure UserDetails where
  completedQuestIds : List Nat
  totalQuestsCompleted : Nat
  dailyClaimInfo : DailyClaim
  canClaimDaily : Bool
  timeUntilNextClaim : Nat
  deriving Repr, DecidableEq

/-- The scan loop of `getUserDetails`: quest ids `1 .. questCounter`, in
order, whose progress entry for `user` is `completed`. -/
def completedScan (s : State) (user : Address) : List Nat :=
  (List.range' 1 s.questCounter).filter
    (fun i => (s.userQuests user i).completed)

/-- `getUserDetails` (contract lines 196–237).  The scan writes into a
fixed array of length `totalQuestsCompleted[user]`; a write past the end
is an out-of-bounds panic (modelled `none`), a shorter scan leaves
trailing zeros.  `currentTime - lastClaimTime` is checked subtraction
(panic on underflow, modelled `none`); it is evaluated only when
`lastClaimTime ≠ 0`. -/
def getUserDetails (s : State) (user : Address) (now : Nat) :
    Option UserDetails :=
  let n := s.totalQuestsCompleted user
  let ids := completedScan s user
  if ids.length > n then none
  else
    let filled := ids ++ List.replicate (n - ids.length) 0
    let dc := s.dailyClaims user
    if dc.lastClaimTime = 0 then
      some { completedQuestIds := filled, totalQuestsCompleted := n,
             dailyClaimInfo := dc, canClaimDaily := true,
             timeUntilNextClaim := 0 }
    else if now < dc.lastClaimTime then none
    else
      let timeSinceLastClaim := now - dc.lastClaimTime
      if timeSinceLastClaim ≥ s.claimCooldown then
        some { completedQuestIds := filled, totalQuestsCompleted := n,
               dailyClaimInfo := dc, canClaimDaily := true,
               timeUntilNextClaim := 0 }
      else
        some { completedQuestIds := filled, totalQuestsCompleted := n,
               dailyClaimInfo := dc, canClaimDaily := false,
               timeUntilNextClaim := s.claimCooldown - timeSinceLastClaim }

/-- The three state-mutating external calls, as trace events. -/
inductive Op where
  | create (caller : Address) (title descr : String) (reward : Nat)
      (requirements : List String) (est endDate : Nat)
  | complete (caller user : Address) (questId : Nat)
  | claim (caller user : Address)

/-- Dispatch an operation at block time `now`. -/
def applyOp (s : State) (op : Op) (now : Nat) : Except Err State :=
  match op with
  | .create c ti de r rq e ed => createQuest s c ti de r rq e ed now
  | .complete c u q => completeQuestForUser s c u q now
  | .claim c u => setDailyClaimed s c u now

/-- EVM revert semantics at trace level: an erroring call leaves the
state untouched. -/
def execOp (s : State) (op : Op) (now : Nat) : State :=
  match applyOp s op now with
  | .ok s' => s'
  | .error _ => s

/-- Projection: the error kind of a reverted call, `none` on success. -/
def errOf (r : Except Err State) : Option Err :=
  match r with
  | .ok _ => none
  | .error e => some e

/-- Projection: whether a call succeeded. -/
def isOk (r : Except Err State) : Bool :=
  match r with
  | .ok _ => true
  | .error _ => false

/-- Run a timed trace of calls under revert semantics and record, in
order, the quest id allocated by each successful `createQuest` (the id a
successful create stores the quest under and emits in `QuestCreated`,
i.e. the incremented `questCounter`). -/
def runCreatedIds : State → List (Op × Nat) → List Nat
  | _, [] => []
  | s, (op, t) :: rest =>
    match applyOp s op t with
    | .error _ => runCreatedIds s rest
    | .ok s' =>
      match op with
      | .create _ _ _ _ _ _ _ => s'.questCounter :: runCreatedIds s' rest
      | _ => runCreatedIds s' rest

/-- States reachable from a freshly constructed contract, every operation
step happening at a block time no earlier than the previous one;
`Reachable t s` records that `s` was produced by operations at times
`≤ t`. -/
inductive Reachable : Nat → State → Prop where
  | init (sender backend amt cooldown t : Nat)
      (hb : backend ≠ 0) (ha : amt > 0) (hc : cooldown ≥ 3600) :
      Reachable t (initState sender backend amt cooldown)
  | step {t t' : Nat} {s s' : State} {op : Op} :
      Reachable t s → t ≤ t' → applyOp s op t' = .ok s' → Reachable t' s'

/-- States reachable from a given state by any operations at any times
(used for properties that must hold regardless of later block times). -/
inductive ReachableFrom : State → State → Prop where
  | refl (s : State) : ReachableFrom s s
  | step {s s' s'' : State} {op : Op} {t : Nat} :
      ReachableFrom s s' → applyOp s' op t = .ok s'' → ReachableFrom s s''

/-! ### Inversion lemmas: what a successful call tells us -/

/-- Successful `createQuest`: caller is owner, schedule valid,
requirements non-empty, and the exact new state. -/
theorem createQuest_ok {s : State} {c : Address} {ti de : String} {r : Nat}
    {rq : List String} {e ed now : Nat} {s' : State}
    (h : createQuest s c ti de r rq e ed now = .ok s') :
    c = s.owner ∧ now < ed ∧ rq ≠ [] ∧
      s' = { s with
        questCounter := s.questCounter + 1
        quests := fun i =>
          if i = s.questCounter + 1 then
            { id := s.questCounter + 1, title := ti, description := de,
              reward := r, requirements := rq, estimatedTimeMinutes := e,
              isActive := true, createdAt := now, endDate := ed }
          else s.quests i } := by
  unfold createQuest at h
  split at h
  · cases h
  · split at h
    · cases h
    · split at h
      · cases h
      · rename_i h1 h2 h3
        push_neg at h1 h2 h3
        refine ⟨h1, h2, ?_, ?_⟩
        · intro hrq
          subst hrq
          simp at h3
        · cases h
          rfl

/-- Successful `completeQuestForUser`: every guard passed and the exact
new state. -/
theorem completeQuestForUser_ok {s : State} {c u : Address} {q now : Nat}
    {s' : State} (h : completeQuestForUser s c u q now = .ok s') :
    (q > 0 ∧ q ≤ s.questCounter) ∧ (s.quests q).isActive = true ∧
      now ≤ (s.quests q).endDate ∧
      (c = s.owner ∨ c = s.backendWallet) ∧ u ≠ 0 ∧
      (s.userQuests u q).completed = false ∧
      s' = { s with
        userQuests := fun u' q' =>
          if u' = u ∧ q' = q then { completed := true, completedAt := now }
          else s.userQuests u' q'
        totalQuestsCompleted := fun u' =>
          if u' = u then s.totalQuestsCompleted u' + 1
          else s.totalQuestsCompleted u' } := by
  unfold completeQuestForUser at h
  split at h
  · cases h
  · split at h
    · cases h
    · split at h
      · cases h
      · split at h
        · cases h
        · split at h
          · cases h
          · split at h
            · cases h
            · rename_i h1 h2 h3 h4 h5 h6
              refine ⟨by omega, by simpa using h2, by omega, ?_, h5, ?_, ?_⟩
              · by_contra hc
                exact h4 hc
              · simpa using h6
              · cases h
                rfl

/-- Successful `setDailyClaimed`: caller authorized, user valid, cooldown
elapsed, and the exact new state. -/
theorem setDailyClaimed_ok {s : State} {c u : Address} {now : Nat}
    {s' : State} (h : setDailyClaimed s c u now = .ok s') :
    (c = s.owner ∨ c = s.backendWallet) ∧ u ≠ 0 ∧
      (s.dailyClaims u).lastClaimTime + s.claimCooldown ≤ now ∧
      s' = { s with
        dailyClaims := fun u' =>
          if u' = u then { lastClaimTime := now, claimed := true }
          else s.dailyClaims u' } := by
  unfold setDailyClaimed at h
  split at h
  · cases h
  · split at h
    · cases h
    · split at h
      · cases h
      · rename_i h1 h2 h3
        refine ⟨?_, h2, by omega, ?_⟩
        · by_contra hc
          exact h1 hc
        · cases h
          rfl

/-! ### The ledger invariant and its preservation -/

/-- `range'` with unit step, one more element: append the next value. -/
theorem range'_one_concat : ∀ (a n : Nat),
    List.range' a (n + 1) = List.range' a n ++ [a + n] := by
  intro a n
  induction n generalizing a with
  | zero => simp
  | succ m ih =>
    rw [List.range'_succ, ih (a + 1), List.range'_succ]
    simp [Nat.add_assoc, Nat.add_comm 1 m]

/-- Flipping one present element of a duplicate-free list from rejected
to accepted grows the filter by exactly one element. -/
theorem length_filter_update {l : List Nat} (hl : l.Nodup) {a : Nat}
    (ha : a ∈ l) {p q : Nat → Bool} (hpa : p a = false) (hqa : q a = true)
    (hother : ∀ x, x ≠ a → q x = p x) :
    (l.filter q).length = (l.filter p).length + 1 := by
  induction l with
  | nil => cases ha
  | cons b tl ih =>
    rcases List.nodup_cons.mp hl with ⟨hbtl, htl⟩
    by_cases hb : b = a
    · subst hb
      have htail : tl.filter q = tl.filter p :=
        List.filter_congr (fun x hx => hother x (fun hxa => hbtl (hxa ▸ hx)))
      simp [List.filter_cons, hpa, hqa, htail]
    · have ha' : a ∈ tl := by
        rcases List.mem_cons.mp ha with h | h
        · exact absurd h.symm hb
        · exact h
      have hqb : q b = p b := hother b hb
      cases hpb : p b
      · simp [List.filter_cons, hqb, hpb, ih htl ha']
      · simp [List.filter_cons, hqb, hpb, ih htl ha']

/-- The ledger invariant at trace-time bound `t`: completed progress
entries refer only to allocated quest ids, the stored per-user counter
matches the scan, and every recorded claim time lies in the past. -/
structure Inv (t : Nat) (s : State) : Prop where
  compBound : ∀ u i, (s.userQuests u i).completed = true →
    1 ≤ i ∧ i ≤ s.questCounter
  totalEq : ∀ u, s.totalQuestsCompleted u = (completedScan s u).length
  lastLe : ∀ u, (s.dailyClaims u).lastClaimTime ≤ t

theorem inv_mono {t t' : Nat} {s : State} (h : Inv t s) (hle : t ≤ t') :
    Inv t' s :=
  ⟨h.compBound, h.totalEq, fun u => le_trans (h.lastLe u) hle⟩

theorem inv_init (sender backend amt cooldown t : Nat) :
    Inv t (initState sender backend amt cooldown) := by
  refine ⟨fun u i h => ?_, fun u => ?_, fun u => ?_⟩
  · simp [initState, defaultProgress] at h
  · simp [initState, completedScan, defaultProgress]
  · simp [initState, defaultClaim]

theorem inv_create {t : Nat} {s s' : State} {c : Address} {ti de : String}
    {r : Nat} {rq : List String} {e ed now : Nat}
    (hInv : Inv t s) (hle : t ≤ now)
    (hok : createQuest s c ti de r rq e ed now = .ok s') : Inv now s' := by
  obtain ⟨-, -, -, hs'⟩ := createQuest_ok hok
  have hcnt : s'.questCounter = s.questCounter + 1 := by rw [hs']
  have huq : s'.userQuests = s.userQuests := by rw [hs']
  have htot : s'.totalQuestsCompleted = s.totalQuestsCompleted := by rw [hs']
  have hdc : s'.dailyClaims = s.dailyClaims := by rw [hs']
  refine ⟨fun u i h => ?_, fun u => ?_, fun u => ?_⟩
  · rw [huq] at h
    rw [hcnt]
    have := hInv.compBound u i h
    exact ⟨this.1, le_trans this.2 (Nat.le_succ _)⟩
  · have hnew : (s.userQuests u (1 + s.questCounter)).completed = false := by
      by_contra hcontra
      have hc : (s.userQuests u (1 + s.questCounter)).completed = true := by
        cases hh : (s.userQuests u (1 + s.questCounter)).completed
        · exact absurd hh hcontra
        · rfl
      have := hInv.compBound u (1 + s.questCounter) hc
      omega
    have hrange : List.range' 1 (s.questCounter + 1) =
        List.range' 1 s.questCounter ++ [1 + s.questCounter] :=
      range'_one_concat 1 s.questCounter
    rw [htot]
    simp only [completedScan, hcnt, huq]
    rw [hrange, List.filter_append, List.length_append]
    rw [hInv.totalEq u]
    simp [completedScan, hnew]
  · rw [hdc]
    exact le_trans (hInv.lastLe u) hle

theorem inv_complete {t : Nat} {s s' : State} {c u : Address} {q now : Nat}
    (hInv : Inv t s) (hle : t ≤ now)
    (hok : completeQuestForUser s c u q now = .ok s') : Inv now s' := by
  obtain ⟨⟨hq1, hq2⟩, -, -, -, -, hnc, hs'⟩ := completeQuestForUser_ok hok
  have hcnt : s'.questCounter = s.questCounter := by rw [hs']
  have huq : s'.userQuests = fun u' q' =>
      if u' = u ∧ q' = q then { completed := true, completedAt := now }
      else s.userQuests u' q' := by rw [hs']
  have htot : s'.totalQuestsCompleted = fun u' =>
      if u' = u then s.totalQuestsCompleted u' + 1
      else s.totalQuestsCompleted u' := by rw [hs']
  have hdc : s'.dailyClaims = s.dailyClaims := by rw [hs']
  refine ⟨fun u' i h => ?_, fun u' => ?_, fun u' => ?_⟩
  · rw [huq] at h
    rw [hcnt]
    by_cases hui : u' = u ∧ i = q
    · obtain ⟨-, hi⟩ := hui
      subst hi
      exact ⟨hq1, hq2⟩
    · simp only [if_neg hui] at h
      exact hInv.compBound u' i h
  · rw [htot]
    simp only [completedScan, hcnt, huq]
    by_cases hu : u' = u
    · subst hu
      rw [if_pos rfl]
      have key :=
        length_filter_update (l := List.range' 1 s.questCounter)
          (List.nodup_range' 1 s.questCounter)
          (a := q) (by rw [List.mem_range'_1]; omega)
          (p := fun i => (s.userQuests u' i).completed)
          (q := fun i => (if u' = u' ∧ i = q then
              ({ completed := true, completedAt := now } : UserProgress)
            else s.userQuests u' i).completed)
          hnc (by simp) (fun x hx => by simp [hx])
      rw [key, hInv.totalEq u']
      rfl
    · rw [if_neg hu]
      rw [hInv.totalEq u']
      have : List.filter (fun i => (if u' = u ∧ i = q then
            ({ completed := true, completedAt := now } : UserProgress)
          else s.userQuests u' i).completed) (List.range' 1 s.questCounter) =
          List.filter (fun i => (s.userQuests u' i).completed)
            (List.range' 1 s.questCounter) :=
        List.filter_congr (fun x _ => by simp [hu])
      rw [this]
      rfl
  · rw [hdc]
    exact le_trans (hInv.lastLe u') hle

theorem inv_claim {t : Nat} {s s' : State} {c u : Address} {now : Nat}
    (hInv : Inv t s) (hle : t ≤ now)
    (hok : setDailyClaimed s c u now = .ok s') : Inv now s' := by
  obtain ⟨-, -, -, hs'⟩ := setDailyClaimed_ok hok
  subst hs'
  refine ⟨hInv.compBound, hInv.totalEq, fun u' => ?_⟩
  by_cases hu : u' = u
  · simp [hu]
  · simp only [if_neg hu]
    exact le_trans (hInv.lastLe u') hle

/-- Every reachable state satisfies the ledger invariant. -/
theorem reachable_inv {t : Nat} {s : State} (h : Reachable t s) : Inv t s := by
  induction h with
  | init sender backend amt cooldown t hb ha hc =>
      exact inv_init sender backend amt cooldown t
  | step hr hle hok ih =>
      rename_i t t' s s' op
      cases op with
      | create c ti de r rq e ed => exact inv_create ih hle hok
      | complete c u q => exact inv_complete ih hle hok
      | claim c u => exact inv_claim ih hle hok

/-! ### Frame facts along arbitrary continuations -/

/-- Along any continuation of the trace: the quest counter never
decreases, the privileged identities and the cooldown never change, an
already-allocated quest record never changes (ids are never reused, and
there is no deactivation entry point), and a completed `(user, quest)`
progress entry is never rewritten. -/
theorem reachableFrom_frame {s s' : State} (h : ReachableFrom s s') :
    s.questCounter ≤ s'.questCounter ∧
    s'.owner = s.owner ∧ s'.backendWallet = s.backendWallet ∧
    s'.claimCooldown = s.claimCooldown ∧
    (∀ i, 1 ≤ i → i ≤ s.questCounter → s'.quests i = s.quests i) ∧
    (∀ u q, (s.userQuests u q).completed = true →
      s'.userQuests u q = s.userQuests u q) := by
  induction h with
  | refl =>
      exact ⟨le_refl _, rfl, rfl, rfl, fun i _ _ => rfl, fun u q _ => rfl⟩
  | step hR hok ih =>
      rename_i s1 s2 op t
      obtain ⟨hcnt, how, hbw, hcd, hqs, hcomp⟩ := ih
      cases op with
      | create c ti de r rq e ed =>
          obtain ⟨-, -, -, hs2⟩ := createQuest_ok hok
          have h1 : s2.questCounter = s1.questCounter + 1 := by rw [hs2]
          have h2 : s2.owner = s1.owner := by rw [hs2]
          have h3 : s2.backendWallet = s1.backendWallet := by rw [hs2]
          have h4 : s2.claimCooldown = s1.claimCooldown := by rw [hs2]
          have h5 : ∀ i, i ≠ s1.questCounter + 1 → s2.quests i = s1.quests i := by
            intro i hi
            rw [hs2]
            simp only
            rw [if_neg hi]
          have h6 : s2.userQuests = s1.userQuests := by rw [hs2]
          refine ⟨by omega, h2.trans how, h3.trans hbw, h4.trans hcd,
            fun i hi1 hi2 => ?_, fun u q hq => ?_⟩
          · rw [h5 i (by omega), hqs i hi1 hi2]
          · rw [h6, hcomp u q hq]
      | complete c u0 q0 =>
          obtain ⟨⟨hq01, hq02⟩, -, -, -, -, hnc, hs2⟩ :=
            completeQuestForUser_ok hok
          have h1 : s2.questCounter = s1.questCounter := by rw [hs2]
          have h2 : s2.owner = s1.owner := by rw [hs2]
          have h3 : s2.backendWallet = s1.backendWallet := by rw [hs2]
          have h4 : s2.claimCooldown = s1.claimCooldown := by rw [hs2]
          have h5 : s2.quests = s1.quests := by rw [hs2]
          refine ⟨by omega, h2.trans how, h3.trans hbw, h4.trans hcd,
            fun i hi1 hi2 => ?_, fun u q hq => ?_⟩
          · rw [h5, hqs i hi1 hi2]
          · have hmid : s1.userQuests u q = s.userQuests u q := hcomp u q hq
            have hmidc : (s1.userQuests u q).completed = true := by
              rw [hmid]; exact hq
            have hne : ¬ (u = u0 ∧ q = q0) := by
              rintro ⟨hu, hqq⟩
              rw [hu, hqq] at hmidc
              rw [hnc] at hmidc
              cases hmidc
            have : s2.userQuests u q = s1.userQuests u q := by
              rw [hs2]
              simp only
              rw [if_neg hne]
            rw [this, hmid]
      | claim c u0 =>
          obtain ⟨-, -, -, hs2⟩ := setDailyClaimed_ok hok
          have h1 : s2.questCounter = s1.questCounter := by rw [hs2]
          have h2 : s2.owner = s1.owner := by rw [hs2]
          have h3 : s2.backendWallet = s1.backendWallet := by rw [hs2]
          have h4 : s2.claimCooldown = s1.claimCooldown := by rw [hs2]
          have h5 : s2.quests = s1.quests := by rw [hs2]
          have h6 : s2.userQuests = s1.userQuests := by rw [hs2]
          refine ⟨by omega, h2.trans how, h3.trans hbw, h4.trans hcd,
            fun i hi1 hi2 => ?_, fun u q hq => ?_⟩
          · rw [h5, hqs i hi1 hi2]
          · rw [h6, hcomp u q hq]

/-! ### Forward behaviour of the operations -/

theorem setDailyClaimed_fails_cooldown {s : State} {c u : Address} {now : Nat}
    (hc : c = s.owner ∨ c = s.backendWallet) (hu : u ≠ 0)
    (ht : now < (s.dailyClaims u).lastClaimTime + s.claimCooldown) :
    setDailyClaimed s c u now = .error .CooldownActive := by
  unfold setDailyClaimed
  rw [if_neg (not_not_intro hc), if_neg hu, if_pos (by omega)]

theorem setDailyClaimed_succeeds {s : State} {c u : Address} {now : Nat}
    (hc : c = s.owner ∨ c = s.backendWallet) (hu : u ≠ 0)
    (ht : (s.dailyClaims u).lastClaimTime + s.claimCooldown ≤ now) :
    isOk (setDailyClaimed s c u now) = true := by
  unfold setDailyClaimed
  rw [if_neg (not_not_intro hc), if_neg hu, if_neg (not_not_intro ht)]
  rfl

theorem completeQuestForUser_already {s : State} {c u : Address} {q now : Nat}
    (hex : q > 0 ∧ q ≤ s.questCounter)
    (hact : (s.quests q).isActive = true)
    (hed : now ≤ (s.quests q).endDate)
    (hauth : c = s.owner ∨ c = s.backendWallet) (hu : u ≠ 0)
    (hcomp : (s.userQuests u q).completed = true) :
    completeQuestForUser s c u q now = .error .AlreadyCompleted := by
  unfold completeQuestForUser
  rw [if_neg (not_not_intro hex), if_neg (not_not_intro hact),
    if_neg (not_not_intro hed), if_neg (not_not_intro hauth), if_neg hu,
    if_pos hcomp]

theorem completeQuestForUser_expired {s : State} {c u : Address} {q now : Nat}
    (hex : q > 0 ∧ q ≤ s.questCounter)
    (hlate : (s.quests q).endDate < now) :
    completeQuestForUser s c u q now = .error .QuestUnavailable := by
  unfold completeQuestForUser
  rw [if_neg (not_not_intro hex)]
  by_cases hact : (s.quests q).isActive = true
  · rw [if_neg (not_not_intro hact), if_pos (by omega)]
  · rw [if_pos hact]

/-- Once the `(user, quest)` entry is completed, no call for that pair
can reach the success branch again. -/
theorem completeQuestForUser_fails_completed {s : State} {c u : Address}
    {q now : Nat} (hcomp : (s.userQuests u q).completed = true) :
    isOk (completeQuestForUser s c u q now) = false := by
  unfold completeQuestForUser
  split_ifs <;> simp_all [isOk]

/-- An unauthorized `completeQuestForUser` always reverts, with one of
the guard errors that precede the success branch. -/
theorem completeQuestForUser_unauth_err {s : State} {c u : Address}
    {q now : Nat} (hc : ¬ (c = s.owner ∨ c = s.backendWallet)) :
    ∃ e, completeQuestForUser s c u q now = .error e := by
  unfold completeQuestForUser
  split_ifs <;> exact ⟨_, rfl⟩

theorem execOp_of_error {s : State} {op : Op} {now : Nat} {e : Err}
    (h : applyOp s op now = .error e) : execOp s op now = s := by
  unfold execOp
  rw [h]

/-- When the per-user counter matches the scan and no recorded claim lies
in the future, `getUserDetails` returns a view. -/
theorem getUserDetails_some {s : State} {u : Address} {now : Nat}
    (htot : s.totalQuestsCompleted u = (completedScan s u).length)
    (hlast : (s.dailyClaims u).lastClaimTime ≤ now) :
    ∃ d, getUserDetails s u now = some d := by
  simp only [getUserDetails]
  rw [if_neg (by omega)]
  by_cases h0 : (s.dailyClaims u).lastClaimTime = 0
  · rw [if_pos h0]
    exact ⟨_, rfl⟩
  · rw [if_neg h0, if_neg (by omega)]
    by_cases hcd : now - (s.dailyClaims u).lastClaimTime ≥ s.claimCooldown
    · rw [if_pos hcd]
      exact ⟨_, rfl⟩
    · rw [if_neg hcd]
      exact ⟨_, rfl⟩

/-- When the per-user counter matches the scan, the id list a view
returns is exactly the scan (the preallocated array is filled with no
trailing padding). -/
theorem getUserDetails_ids {s : State} {u : Address} {now : Nat}
    {d : UserDetails}
    (htot : s.totalQuestsCompleted u = (completedScan s u).length)
    (hd : getUserDetails s u now = some d) :
    d.completedQuestIds = completedScan s u := by
  have hpad : s.totalQuestsCompleted u - (completedScan s u).length = 0 := by
    omega
  simp only [getUserDetails] at hd
  rw [if_neg (by omega)] at hd
  split at hd
  · cases hd
    simp [hpad]
  · split at hd
    · cases hd
    · split at hd
      · cases hd
        simp [hpad]
      · cases hd
        simp [hpad]

/-- The stored total a view returns is the stored per-user counter. -/
theorem getUserDetails_total {s : State} {u : Address} {now : Nat}
    {d : UserDetails} (hd : getUserDetails s u now = some d) :
    d.totalQuestsCompleted = s.totalQuestsCompleted u := by
  simp only [getUserDetails] at hd
  split at hd
  · cases hd
  · split at hd
    · cases hd
      rfl
    · split at hd
      · cases hd
      · split at hd
        · cases hd
          rfl
        · cases hd
          rfl

/-- The daily-claim fields of any returned view follow the documented
three-branch formula. -/
theorem getUserDetails_daily {s : State} {u : Address} {now : Nat}
    {d : UserDetails} (hd : getUserDetails s u now = some d) :
    d.dailyClaimInfo = s.dailyClaims u ∧
    (((s.dailyClaims u).lastClaimTime = 0 →
        d.canClaimDaily = true ∧ d.timeUntilNextClaim = 0) ∧
     ((s.dailyClaims u).lastClaimTime ≠ 0 →
        s.claimCooldown ≤ now - (s.dailyClaims u).lastClaimTime →
        d.canClaimDaily = true ∧ d.timeUntilNextClaim = 0) ∧
     ((s.dailyClaims u).lastClaimTime ≠ 0 →
        now - (s.dailyClaims u).lastClaimTime < s.claimCooldown →
        d.canClaimDaily = false ∧
        d.timeUntilNextClaim =
          s.claimCooldown - (now - (s.dailyClaims u).lastClaimTime))) := by
  simp only [getUserDetails] at hd
  split at hd
  · cases hd
  · split at hd
    · rename_i h0
      cases hd
      exact ⟨rfl, fun _ => ⟨rfl, rfl⟩, fun hne _ => absurd h0 hne,
        fun hne _ => absurd h0 hne⟩
    · split at hd
      · cases hd
      · rename_i h0 hnu
        split at hd
        · rename_i hcd
          cases hd
          exact ⟨rfl, fun hz => absurd hz h0, fun _ _ => ⟨rfl, rfl⟩,
            fun _ hlt => absurd hcd (by omega)⟩
        · rename_i hcd
          cases hd
          exact ⟨rfl, fun hz => absurd hz h0, fun _ hge => absurd hge (by omega),
            fun _ _ => ⟨rfl, rfl⟩⟩

/-! ## The specified properties -/

/-- From any state, the ids allocated by the successful creates of a
trace are consecutive, starting right after the current counter. -/
theorem runCreatedIds_range (tr : List (Op × Nat)) : ∀ s : State,
    ∃ k, runCreatedIds s tr = List.range' (s.questCounter + 1) k := by
  induction tr with
  | nil => exact fun s => ⟨0, rfl⟩
  | cons hd tl ih =>
      intro s
      obtain ⟨op, t⟩ := hd
      cases hres : applyOp s op t with
      | error e =>
          obtain ⟨k, hk⟩ := ih s
          exact ⟨k, by simp only [runCreatedIds, hres]; exact hk⟩
      | ok s' =>
          cases op with
          | create c ti de r rq e ed =>
              have hres' : createQuest s c ti de r rq e ed t = .ok s' := hres
              obtain ⟨-, -, -, hs'⟩ := createQuest_ok hres'
              have hcnt : s'.questCounter = s.questCounter + 1 := by rw [hs']
              obtain ⟨k, hk⟩ := ih s'
              refine ⟨k + 1, ?_⟩
              simp only [runCreatedIds, hres]
              rw [hk, hcnt]
              rfl
          | complete c u q =>
              have hres' : completeQuestForUser s c u q t = .ok s' := hres
              obtain ⟨-, -, -, -, -, -, hs'⟩ := completeQuestForUser_ok hres'
              have hcnt : s'.questCounter = s.questCounter := by rw [hs']
              obtain ⟨k, hk⟩ := ih s'
              refine ⟨k, ?_⟩
              simp only [runCreatedIds, hres]
              rw [hk, hcnt]
          | claim c u =>
              have hres' : setDailyClaimed s c u t = .ok s' := hres
              obtain ⟨-, -, -, hs'⟩ := setDailyClaimed_ok hres'
              have hcnt : s'.questCounter = s.questCounter := by rw [hs']
              obtain ⟨k, hk⟩ := ih s'
              refine ⟨k, ?_⟩
              simp only [runCreatedIds, hres]
              rw [hk, hcnt]

/-- C5: over any trace of calls from the initial state, the quest ids
produced by the successful `createQuest` calls are exactly
`1, 2, 3, …` in order — strictly increasing from `1`, with no gaps, no
repeats, and no reuse. -/
theorem quest_ids_sequential (sender backend amt cooldown : Nat)
    (tr : List (Op × Nat)) :
    ∃ k, runCreatedIds (initState sender backend amt cooldown) tr =
      List.range' 1 k :=
  runCreatedIds_range tr (initState sender backend amt cooldown)

/-- C3: after a successful claim at `t0`, an authorized re-claim for the
same user fails with `CooldownActive` at every `t` with
`t0 < t < t0 + C` and succeeds at every `t ≥ t0 + C`. -/
theorem cooldown_correct {s s' : State} {c c' u : Address} {t0 : Nat}
    (h0 : setDailyClaimed s c u t0 = .ok s')
    (hauth : c' = s.owner ∨ c' = s.backendWallet) :
    (∀ t, t0 < t → t < t0 + s.claimCooldown →
      setDailyClaimed s' c' u t = .error .CooldownActive) ∧
    (∀ t, t0 + s.claimCooldown ≤ t →
      isOk (setDailyClaimed s' c' u t) = true) := by
  obtain ⟨-, hu, -, hs'⟩ := setDailyClaimed_ok h0
  have how : s'.owner = s.owner := by rw [hs']
  have hbw : s'.backendWallet = s.backendWallet := by rw [hs']
  have hcd : s'.claimCooldown = s.claimCooldown := by rw [hs']
  have hdc : (s'.dailyClaims u).lastClaimTime = t0 := by rw [hs']; simp
  have hauth' : c' = s'.owner ∨ c' = s'.backendWallet := by
    rw [how, hbw]; exact hauth
  refine ⟨fun t ht1 ht2 => ?_, fun t ht => ?_⟩
  · exact setDailyClaimed_fails_cooldown hauth' hu (by rw [hdc, hcd]; omega)
  · exact setDailyClaimed_succeeds hauth' hu (by rw [hdc, hcd]; omega)

/-- Witness for C3: cooldown 3600, claim at `t0 = 5000`; a re-claim at
`t = 6000` reverts with `CooldownActive` and one at `t = 8600`
succeeds. -/
theorem cooldown_correct_witness :
    setDailyClaimed (execOp (initState 1 2 10 3600) (Op.claim 2 7) 5000)
        2 7 6000 = .error .CooldownActive ∧
    isOk (setDailyClaimed (execOp (initState 1 2 10 3600) (Op.claim 2 7) 5000)
        2 7 8600) = true := by
  have h := @cooldown_correct (initState 1 2 10 3600)
    (execOp (initState 1 2 10 3600) (Op.claim 2 7) 5000) 2 2 7 5000
    rfl (Or.inr rfl)
  exact ⟨h.1 6000 (by decide) (by decide), h.2 8600 (by decide)⟩

/-- C4 (code bug): with cooldown `3600` and a user who has never claimed
(`lastClaimTime = 0`), `setDailyClaimed` invoked by the owner for user
`5` at time `100` reverts with `CooldownActive` — the code does not
special-case the `0` sentinel, so the first claim is rejected at any
block time below the cooldown — while `getUserDetails` at the very same
state and time reports `canClaimDaily = true` for that user. -/
theorem first_claim_rejected_before_cooldown_epoch :
    ((initState 1 2 10 3600).dailyClaims 5).lastClaimTime = 0 ∧
    setDailyClaimed (initState 1 2 10 3600) 1 5 100 =
      .error .CooldownActive ∧
    (getUserDetails (initState 1 2 10 3600) 5 100).map
      UserDetails.canClaimDaily = some true :=
  ⟨rfl, rfl, rfl⟩

/-- C7: for an existing quest, `completeQuestForUser` at any time
strictly after `endDate` reverts with `QuestUnavailable` (whatever the
`isActive` flag, the caller, the user or the completion state), while at
times up to and including `endDate` with the quest active the expiry
guard never fires: the outcome is never `QuestUnavailable`. -/
theorem expiry_enforcement {s : State} {c u : Address} {q now : Nat}
    (hex : q > 0 ∧ q ≤ s.questCounter) :
    ((s.quests q).endDate < now →
      completeQuestForUser s c u q now = .error .QuestUnavailable) ∧
    ((s.quests q).isActive = true → now ≤ (s.quests q).endDate →
      errOf (completeQuestForUser s c u q now) ≠ some .QuestUnavailable) := by
  refine ⟨fun hlate => completeQuestForUser_expired hex hlate, ?_⟩
  intro hact hed
  unfold completeQuestForUser
  rw [if_neg (not_not_intro hex), if_neg (not_not_intro hact),
    if_neg (not_not_intro hed)]
  split_ifs <;> simp [errOf]

/-- Witness for C7: a state holding one active quest with
`endDate = 100`; completion at `150` reverts with `QuestUnavailable`,
completion at `100` (by the backend, for user `7`) does not. -/
theorem expiry_enforcement_witness :
    completeQuestForUser
      (execOp (initState 1 2 10 3600) (Op.create 1 ("") ("") 5 [("r")] 1 100) 10)
      2 7 1 150 = .error .QuestUnavailable ∧
    errOf (completeQuestForUser
      (execOp (initState 1 2 10 3600) (Op.create 1 ("") ("") 5 [("r")] 1 100) 10)
      2 7 1 100) ≠ some .QuestUnavailable := by
  have h := @expiry_enforcement
    (execOp (initState 1 2 10 3600) (Op.create 1 ("") ("") 5 [("r")] 1 100) 10)
    2 7 1 150 (by decide)
  have h' := @expiry_enforcement
    (execOp (initState 1 2 10 3600) (Op.create 1 ("") ("") 5 [("r")] 1 100) 10)
    2 7 1 100 (by decide)
  exact ⟨h.1 (by decide), h'.2 (by decide) (by decide)⟩

/-- Counterexample to C1 as stated: owner `1` creates a quest with
`endDate = 100` at time `10`; the backend completes it for user `7` at
time `50` (success); repeating the same call at time `150` reverts with
`QuestUnavailable` — the `questIsActive` modifier runs before the
double-completion check — not with `AlreadyCompleted`. -/
theorem one_way_completion_cex :
    isOk (completeQuestForUser
      (execOp (initState 1 2 10 3600) (Op.create 1 ("") ("") 5 [("r")] 1 100) 10)
      2 7 1 50) = true ∧
    completeQuestForUser (execOp (execOp (initState 1 2 10 3600)
        (Op.create 1 ("") ("") 5 [("r")] 1 100) 10) (Op.complete 2 7 1) 50)
      2 7 1 150 = .error .QuestUnavailable ∧
    Err.QuestUnavailable ≠ Err.AlreadyCompleted :=
  ⟨rfl, rfl, by decide⟩

/-- C1 (amended): once `completeQuestForUser` succeeds for a pair at
time `t`, after any further operations the pair's entry stays
`completed` with `completedAt = t` forever, every later call for the
same pair fails, and that failure is `AlreadyCompleted` whenever the
caller is authorized and the call happens no later than the quest's
`endDate` (the quest record cannot change); at any time strictly after
`endDate` the failure is `QuestUnavailable` instead. -/
theorem one_way_completion_amended {s s1 s2 : State} {c u : Address}
    {q t : Nat} (h0 : completeQuestForUser s c u q t = .ok s1)
    (hR : ReachableFrom s1 s2) :
    ((s2.userQuests u q).completed = true ∧
      (s2.userQuests u q).completedAt = t) ∧
    (∀ c' t', isOk (completeQuestForUser s2 c' u q t') = false) ∧
    (∀ c' t', (c' = s.owner ∨ c' = s.backendWallet) →
      t' ≤ (s.quests q).endDate →
      completeQuestForUser s2 c' u q t' = .error .AlreadyCompleted) ∧
    (∀ t', (s.quests q).endDate < t' → ∀ c',
      completeQuestForUser s2 c' u q t' = .error .QuestUnavailable) := by
  obtain ⟨⟨hq1, hq2⟩, hact, hed, hauth0, hu, hnc, hs1⟩ :=
    completeQuestForUser_ok h0
  have h1uq : s1.userQuests u q = { completed := true, completedAt := t } := by
    rw [hs1]; simp
  have h1cnt : s1.questCounter = s.questCounter := by rw [hs1]
  have h1q : s1.quests = s.quests := by rw [hs1]
  have h1ow : s1.owner = s.owner := by rw [hs1]
  have h1bw : s1.backendWallet = s.backendWallet := by rw [hs1]
  obtain ⟨hcnt2, how2, hbw2, hcd2, hqs2, hcomp2⟩ := reachableFrom_frame hR
  have h2uq : s2.userQuests u q = { completed := true, completedAt := t } := by
    rw [hcomp2 u q (by rw [h1uq]), h1uq]
  have h2q : s2.quests q = s.quests q := by
    rw [hqs2 q hq1 (by omega), h1q]
  refine ⟨⟨by rw [h2uq], by rw [h2uq]⟩, ?_, ?_, ?_⟩
  · intro c' t'
    exact completeQuestForUser_fails_completed (by rw [h2uq])
  · intro c' t' hauth hle
    refine completeQuestForUser_already ⟨hq1, by omega⟩ ?_ ?_ ?_ hu ?_
    · rw [h2q]; exact hact
    · rw [h2q]; exact hle
    · rw [how2, hbw2, h1ow, h1bw]; exact hauth
    · rw [h2uq]
  · intro t' hlate c'
    refine completeQuestForUser_expired ⟨hq1, by omega⟩ ?_
    rw [h2q]; exact hlate

/-- Witness for C1 (amended): after the quest completed for `(7, 1)` at
time `50`, a repeat at `60` (before `endDate = 100`) reverts with
`AlreadyCompleted` and a repeat at `150` reverts with
`QuestUnavailable`. -/
theorem one_way_completion_amended_witness :
    completeQuestForUser (execOp (execOp (initState 1 2 10 3600)
        (Op.create 1 ("") ("") 5 [("r")] 1 100) 10) (Op.complete 2 7 1) 50)
      2 7 1 60 = .error .AlreadyCompleted ∧
    completeQuestForUser (execOp (execOp (initState 1 2 10 3600)
        (Op.create 1 ("") ("") 5 [("r")] 1 100) 10) (Op.complete 2 7 1) 50)
      2 7 1 150 = .error .QuestUnavailable := by
  have h := @one_way_completion_amended
    (execOp (initState 1 2 10 3600) (Op.create 1 ("") ("") 5 [("r")] 1 100) 10)
    (execOp (execOp (initState 1 2 10 3600)
      (Op.create 1 ("") ("") 5 [("r")] 1 100) 10) (Op.complete 2 7 1) 50)
    (execOp (execOp (initState 1 2 10 3600)
      (Op.create 1 ("") ("") 5 [("r")] 1 100) 10) (Op.complete 2 7 1) 50)
    2 7 1 50 rfl (ReachableFrom.refl _)
  exact ⟨h.2.2.1 2 60 (Or.inr rfl) (by decide), h.2.2.2 150 (by decide) 2⟩

/-- Counterexample to C2 as stated: caller `99` is neither owner `1` nor
backend `2`, yet `completeQuestForUser` for the nonexistent quest id `1`
reverts with `NotFound`, not `Unauthorized` — the `questExists` modifier
runs before the authorization check. -/
theorem authority_gating_cex :
    errOf (completeQuestForUser (initState 1 2 10 3600) 99 7 1 50) =
      some .NotFound ∧
    Err.NotFound ≠ Err.Unauthorized :=
  ⟨rfl, by decide⟩

/-- C2 (amended): a mutating call by a caller lacking the required role
always reverts and leaves the state unchanged; the error is
`Unauthorized` for `createQuest` (non-owner) and `setDailyClaimed`
(neither owner nor backend) on every input, and for
`completeQuestForUser` whenever the quest-existence and availability
guards (which run first) pass — otherwise that call still reverts, with
the earlier guard's error. -/
theorem authority_gating_amended {s : State} {c : Address} :
    (∀ ti de r rq e ed now, c ≠ s.owner →
      createQuest s c ti de r rq e ed now = .error .Unauthorized ∧
      execOp s (Op.create c ti de r rq e ed) now = s) ∧
    (∀ u now, ¬ (c = s.owner ∨ c = s.backendWallet) →
      setDailyClaimed s c u now = .error .Unauthorized ∧
      execOp s (Op.claim c u) now = s) ∧
    (∀ u q now, ¬ (c = s.owner ∨ c = s.backendWallet) →
      (∃ e, completeQuestForUser s c u q now = .error e) ∧
      execOp s (Op.complete c u q) now = s ∧
      (q > 0 ∧ q ≤ s.questCounter → (s.quests q).isActive = true →
        now ≤ (s.quests q).endDate →
        completeQuestForUser s c u q now = .error .Unauthorized)) := by
  refine ⟨fun ti de r rq e ed now hc => ?_, fun u now hc => ?_,
    fun u q now hc => ?_⟩
  · have herr : createQuest s c ti de r rq e ed now = .error .Unauthorized := by
      unfold createQuest
      rw [if_pos hc]
    exact ⟨herr, execOp_of_error herr⟩
  · have herr : setDailyClaimed s c u now = .error .Unauthorized := by
      unfold setDailyClaimed
      rw [if_pos hc]
    exact ⟨herr, execOp_of_error herr⟩
  · obtain ⟨e', he'⟩ := completeQuestForUser_unauth_err (u := u) (q := q) hc
    refine ⟨⟨e', he'⟩, execOp_of_error he', fun hex hact hed => ?_⟩
    unfold completeQuestForUser
    rw [if_neg (not_not_intro hex), if_neg (not_not_intro hact),
      if_neg (not_not_intro hed), if_pos hc]

/-- Witness for C2 (amended): caller `99` on a fresh ledger — the daily
claim reverts `Unauthorized` with no state change, and quest creation
reverts `Unauthorized`. -/
theorem authority_gating_amended_witness :
    setDailyClaimed (initState 1 2 10 3600) 99 7 50 = .error .Unauthorized ∧
    execOp (initState 1 2 10 3600) (Op.claim 99 7) 50 =
      initState 1 2 10 3600 ∧
    createQuest (initState 1 2 10 3600) 99 ("") ("") 5 [("r")] 1 100 10 =
      .error .Unauthorized := by
  have h := @authority_gating_amended (initState 1 2 10 3600) 99
  obtain ⟨hce, hse⟩ := h.2.1 7 50 (by decide)
  obtain ⟨hcr, -⟩ := h.1 ("") ("") 5 [("r")] 1 100 10 (by decide)
  exact ⟨hce, hse, hcr⟩

/-- Counterexample to C6 as stated: owner creates a quest with both
`endDate = 5 ≤ now = 10` and empty `requirements`; the call reverts with
`InvalidSchedule`, not with the `InvalidQuest` the claim's
"fails with InvalidQuest whenever requirements is empty" conjunct
demands — the schedule check runs first. -/
theorem createQuest_error_precedence_cex :
    createQuest (initState 1 2 10 3600) 1 ("") ("") 5 [] 1 5 10 =
      .error .InvalidSchedule ∧
    Err.InvalidSchedule ≠ Err.InvalidQuest :=
  ⟨rfl, by decide⟩

/-- C6 (amended): `createQuest` invoked by the owner reverts with
`InvalidSchedule` whenever `endDate ≤ now`; otherwise reverts with
`InvalidQuest` whenever `requirements` is empty; otherwise succeeds,
incrementing the counter and storing under the newly allocated id
`questCounter + 1` a record with that id, the given fields,
`isActive = true` and `createdAt = now` (the Solidity function itself
returns no value; the new id is observable in the `QuestCreated` event
and the stored record). -/
theorem createQuest_behavior_amended {s : State} {c : Address}
    {ti de : String} {r : Nat} {rq : List String} {e ed now : Nat}
    (hc : c = s.owner) :
    (ed ≤ now →
      createQuest s c ti de r rq e ed now = .error .InvalidSchedule) ∧
    (now < ed → rq = [] →
      createQuest s c ti de r rq e ed now = .error .InvalidQuest) ∧
    (now < ed → rq ≠ [] → ∃ s',
      createQuest s c ti de r rq e ed now = .ok s' ∧
      s'.questCounter = s.questCounter + 1 ∧
      s'.quests s'.questCounter =
        { id := s'.questCounter, title := ti, description := de, reward := r,
          requirements := rq, estimatedTimeMinutes := e, isActive := true,
          createdAt := now, endDate := ed }) := by
  have hnc : ¬ c ≠ s.owner := not_not_intro hc
  refine ⟨fun hle => ?_, fun hlt hrq => ?_, fun hlt hrq => ?_⟩
  · unfold createQuest
    rw [if_neg hnc, if_pos (by omega)]
  · unfold createQuest
    rw [if_neg hnc, if_neg (not_not_intro (by omega : ed > now)),
      if_pos (by simp [hrq])]
  · unfold createQuest
    rw [if_neg hnc, if_neg (not_not_intro (by omega : ed > now)),
      if_neg (not_not_intro (by simpa using List.length_pos.mpr hrq))]
    refine ⟨_, rfl, rfl, ?_⟩
    simp

/-- Witness for C6 (amended): on a fresh ledger the owner's create with
a past `endDate` reverts `InvalidSchedule`; with a future `endDate` but
no requirements it reverts `InvalidQuest`; with both valid it succeeds
and stores the quest under id `1`. -/
theorem createQuest_behavior_amended_witness :
    createQuest (initState 1 2 10 3600) 1 ("") ("") 5 [("r")] 1 5 10 =
      .error .InvalidSchedule ∧
    createQuest (initState 1 2 10 3600) 1 ("") ("") 5 [] 1 100 10 =
      .error .InvalidQuest ∧
    (∃ s', createQuest (initState 1 2 10 3600) 1 ("") ("") 5 [("r")] 1 100 10 =
        .ok s' ∧
      s'.questCounter = (initState 1 2 10 3600).questCounter + 1 ∧
      s'.quests s'.questCounter =
        { id := s'.questCounter, title := (""), description := (""),
          reward := 5, requirements := [("r")], estimatedTimeMinutes := 1,
          isActive := true, createdAt := 10, endDate := 100 }) := by
  have h1 := @createQuest_behavior_amended (initState 1 2 10 3600) 1
    ("") ("") 5 [("r")] 1 5 10 rfl
  have h2 := @createQuest_behavior_amended (initState 1 2 10 3600) 1
    ("") ("") 5 [] 1 100 10 rfl
  have h3 := @createQuest_behavior_amended (initState 1 2 10 3600) 1
    ("") ("") 5 [("r")] 1 100 10 rfl
  exact ⟨h1.1 (by decide), h2.2.1 (by decide) rfl,
    h3.2.2 (by decide) (by decide)⟩

/-- C8: in every reachable state, read at any time not earlier than the
trace's last operation, `getUserDetails` returns a view whose stored
`totalQuestsCompleted` counter equals the number of elements of
`completedQuestIds`. -/
theorem derived_view_consistent {t : Nat} {s : State} (hR : Reachable t s)
    (u : Address) {now : Nat} (hnow : t ≤ now) :
    ∃ d, getUserDetails s u now = some d ∧
      d.totalQuestsCompleted = d.completedQuestIds.length := by
  have hInv := reachable_inv hR
  obtain ⟨d, hd⟩ := getUserDetails_some (hInv.totalEq u)
    (le_trans (hInv.lastLe u) hnow)
  refine ⟨d, hd, ?_⟩
  rw [getUserDetails_total hd, getUserDetails_ids (hInv.totalEq u) hd]
  exact hInv.totalEq u

/-- Witness for C8: after one created quest and one completion for user
`7`, the view reports `totalQuestsCompleted = 1` matching the singleton
id list. -/
theorem derived_view_consistent_witness :
    ∃ d, getUserDetails (execOp (execOp (initState 1 2 10 3600)
        (Op.create 1 ("") ("") 5 [("r")] 1 100) 10) (Op.complete 2 7 1) 50)
      7 50 = some d ∧
      d.totalQuestsCompleted = d.completedQuestIds.length := by
  have hok1 : applyOp (initState 1 2 10 3600)
      (Op.create 1 ("") ("") 5 [("r")] 1 100) 10 =
      .ok (execOp (initState 1 2 10 3600)
        (Op.create 1 ("") ("") 5 [("r")] 1 100) 10) := rfl
  have hok2 : applyOp (execOp (initState 1 2 10 3600)
        (Op.create 1 ("") ("") 5 [("r")] 1 100) 10) (Op.complete 2 7 1) 50 =
      .ok (execOp (execOp (initState 1 2 10 3600)
        (Op.create 1 ("") ("") 5 [("r")] 1 100) 10) (Op.complete 2 7 1) 50) :=
    rfl
  have hre : Reachable 50 (execOp (execOp (initState 1 2 10 3600)
      (Op.create 1 ("") ("") 5 [("r")] 1 100) 10) (Op.complete 2 7 1) 50) :=
    Reachable.step
      (Reachable.step
        (Reachable.init 1 2 10 3600 10 (by decide) (by decide) (by decide))
        (by decide) hok1)
      (by decide) hok2
  exact @derived_view_consistent 50
    (execOp (execOp (initState 1 2 10 3600)
      (Op.create 1 ("") ("") 5 [("r")] 1 100) 10) (Op.complete 2 7 1) 50)
    hre 7 50 (by decide)

/-- C9: in every reachable state read at any time not earlier than the
trace, `getUserDetails` returns a view (it never fails) whose daily
fields follow the exact three-branch formula over `lastClaimTime`,
`now` and the cooldown; and it is a pure read — on a fresh ledger every
user maps to the all-default zero view. -/
theorem getUserDetails_daily_fields :
    (∀ (t : Nat) (s : State) (u : Address) (now : Nat),
      Reachable t s → t ≤ now →
      ∃ d, getUserDetails s u now = some d ∧
        d.dailyClaimInfo = s.dailyClaims u ∧
        (((s.dailyClaims u).lastClaimTime = 0 →
            d.canClaimDaily = true ∧ d.timeUntilNextClaim = 0) ∧
         ((s.dailyClaims u).lastClaimTime ≠ 0 →
            s.claimCooldown ≤ now - (s.dailyClaims u).lastClaimTime →
            d.canClaimDaily = true ∧ d.timeUntilNextClaim = 0) ∧
         ((s.dailyClaims u).lastClaimTime ≠ 0 →
            now - (s.dailyClaims u).lastClaimTime < s.claimCooldown →
            d.canClaimDaily = false ∧
            d.timeUntilNextClaim =
              s.claimCooldown - (now - (s.dailyClaims u).lastClaimTime)))) ∧
    (∀ sender backend amt cooldown u now,
      getUserDetails (initState sender backend amt cooldown) u now =
        some { completedQuestIds := [], totalQuestsCompleted := 0,
               dailyClaimInfo := { lastClaimTime := 0, claimed := false },
               canClaimDaily := true, timeUntilNextClaim := 0 }) := by
  constructor
  · intro t s u now hR hnow
    have hInv := reachable_inv hR
    obtain ⟨d, hd⟩ := getUserDetails_some (hInv.totalEq u)
      (le_trans (hInv.lastLe u) hnow)
    exact ⟨d, hd, getUserDetails_daily hd⟩
  · intro sender backend amt cooldown u now
    rfl

/-- Witness for C9: after a claim at `5000` with cooldown `3600`, the
view at `6800` reports `canClaimDaily = false` and
`timeUntilNextClaim = 1800`. -/
theorem getUserDetails_daily_fields_witness :
    ∃ d, getUserDetails (execOp (initState 1 2 10 3600) (Op.claim 2 7) 5000)
        7 6800 = some d ∧
      d.canClaimDaily = false ∧ d.timeUntilNextClaim = 1800 := by
  have hok1 : applyOp (initState 1 2 10 3600) (Op.claim 2 7) 5000 =
      .ok (execOp (initState 1 2 10 3600) (Op.claim 2 7) 5000) := rfl
  have hre : Reachable 5000
      (execOp (initState 1 2 10 3600) (Op.claim 2 7) 5000) :=
    Reachable.step
      (Reachable.init 1 2 10 3600 0 (by decide) (by decide) (by decide))
      (by decide) hok1
  obtain ⟨d, hd, hinfo, h1, h2, h3⟩ :=
    getUserDetails_daily_fields.1 5000
      (execOp (initState 1 2 10 3600) (Op.claim 2 7) 5000) 7 6800 hre
      (by decide)
  have hc := h3 (by decide) (by decide)
  refine ⟨d, hd, hc.1, ?_⟩
  rw [hc.2]
  decide

/-- C10: in every reachable state, the `completedQuestIds` list of any
view `getUserDetails` returns is strictly increasing (sorted ascending,
no duplicates), as the scan walks ids `1 .. questCounter` upward. -/
theorem completedQuestIds_sorted {t : Nat} {s : State} (hR : Reachable t s)
    (u : Address) {now : Nat} {d : UserDetails}
    (hd : getUserDetails s u now = some d) :
    d.completedQuestIds.Pairwise (· < ·) := by
  have hInv := reachable_inv hR
  rw [getUserDetails_ids (hInv.totalEq u) hd]
  exact (List.pairwise_lt_range' 1 s.questCounter).sublist
    (List.filter_sublist _)

/-- Witness for C10: the view after one completion has id list `[1]`,
which is strictly increasing. -/
theorem completedQuestIds_sorted_witness :
    (({ completedQuestIds := [1], totalQuestsCompleted := 1,
        dailyClaimInfo := { lastClaimTime := 0, claimed := false },
        canClaimDaily := true, timeUntilNextClaim := 0 } :
      UserDetails)).completedQuestIds.Pairwise (· < ·) := by
  have hok1 : applyOp (initState 1 2 10 3600)
      (Op.create 1 ("") ("") 5 [("r")] 1 100) 10 =
      .ok (execOp (initState 1 2 10 3600)
        (Op.create 1 ("") ("") 5 [("r")] 1 100) 10) := rfl
  have hok2 : applyOp (execOp (initState 1 2 10 3600)
        (Op.create 1 ("") ("") 5 [("r")] 1 100) 10) (Op.complete 2 7 1) 50 =
      .ok (execOp (execOp (initState 1 2 10 3600)
        (Op.create 1 ("") ("") 5 [("r")] 1 100) 10) (Op.complete 2 7 1) 50) :=
    rfl
  have hre : Reachable 50 (execOp (execOp (initState 1 2 10 3600)
      (Op.create 1 ("") ("") 5 [("r")] 1 100) 10) (Op.complete 2 7 1) 50) :=
    Reachable.step
      (Reachable.step
        (Reachable.init 1 2 10 3600 10 (by decide) (by decide) (by decide))
        (by decide) hok1)
      (by decide) hok2
  exact @completedQuestIds_sorted 50
    (execOp (execOp (initState 1 2 10 3600)
      (Op.create 1 ("") ("") 5 [("r")] 1 100) 10) (Op.complete 2 7 1) 50)
    hre 7 50
    { completedQuestIds := [1], totalQuestsCompleted := 1,
      dailyClaimInfo := { lastClaimTime := 0, claimed := false },
      canClaimDaily := true, timeUntilNextClaim := 0 }
    rfl

end QuestTracker
